import Mathlib

/-!
Verification of the fruitful-search lexical engine.

Shallow embedding of the core search code of the repository:
  * `src/core/db.py`        — query engine (`_coerce_int`, `_sanitize_for_fts`, `search`)
  * `src/scripts/build_index.py` — builder (`main`, raw-JSON population loop)

Python dynamic values are modelled by `PyVal`; Python floats are modelled by
rationals, which is exact here because the code only parses, stores and
returns numeric values and never performs float arithmetic.  A Python call
that may raise is modelled as `Except`; the SQLite FTS5 engine (external to
the repository) is modelled by token-containment matching plus an abstract
rejection oracle for its query-syntax errors.
-/

deriving instance DecidableEq for Except

namespace FruitfulSearch

/-- A Python runtime value as it appears in catalog records and SQLite rows.
Floats are carried as rationals (exactly representable for every literal that
occurs; no arithmetic is performed on them). -/
inductive PyVal where
  | vInt (n : Int)
  | vFloat (q : Rat)
  | vStr (s : String)
  | vNone
deriving DecidableEq

/-- The character class of `re.findall(r"[0-9A-Za-z]+", ...)` in
`_sanitize_for_fts` (db.py:52): ASCII letters and digits only. -/
def isAlnumAscii (c : Char) : Bool :=
  ('0' ≤ c && c ≤ '9') || ('A' ≤ c && c ≤ 'Z') || ('a' ≤ c && c ≤ 'z')

/-- Worker for `tokenizeChars`: scans the text left to right, accumulating the
current alphanumeric run (reversed) in `acc` and emitting it when a separator
or the end of input is reached. -/
def tokenizeAux : List Char → List Char → List (List Char)
  | [], acc => if acc.isEmpty then [] else [acc.reverse]
  | c :: cs, acc =>
    if isAlnumAscii c then tokenizeAux cs (c :: acc)
    else if acc.isEmpty then tokenizeAux cs []
    else acc.reverse :: tokenizeAux cs []

/-- Python `re.findall` with pattern `[0-9A-Za-z]+`: the maximal runs of ASCII
alphanumerics, in order (db.py:50-53, `_sanitize_for_fts`). -/
def tokenizeChars (l : List Char) : List (List Char) :=
  tokenizeAux l []

/-- Python `" ".join(...)` at character level. -/
def joinSpace : List (List Char) → List Char
  | [] => []
  | [t] => t
  | t :: ts => t ++ ' ' :: joinSpace ts

/-- Python `str.strip()`: removes leading and trailing whitespace. -/
def pyStrip (l : List Char) : List Char :=
  ((l.dropWhile Char.isWhitespace).reverse.dropWhile Char.isWhitespace).reverse

/-- Numeric value of a digit string (most significant first). -/
def digitsToNat (l : List Char) : Nat :=
  l.foldl (fun a c => a * 10 + (c.toNat - '0'.toNat)) 0

/-- A nonempty all-digit run, as a natural number. -/
def parseNatDigits (l : List Char) : Option Nat :=
  if !l.isEmpty && l.all Char.isDigit then some (digitsToNat l) else none

/-- Python `int(s)` on a string: optional surrounding whitespace, optional
sign, then a nonempty digit run.  (Digit-group underscores, which the catalog
never uses, are not modelled.) -/
def parseIntChars (l0 : List Char) : Option Int :=
  match pyStrip l0 with
  | '-' :: r => (parseNatDigits r).map (fun n => -(n : Int))
  | '+' :: r => (parseNatDigits r).map (fun n => (n : Int))
  | l => (parseNatDigits l).map (fun n => (n : Int))

/-- An unsigned decimal literal `ddd`, `ddd.ddd`, `ddd.` or `.ddd`. -/
def parseUnsignedFloat (l : List Char) : Option Rat :=
  let intPart := l.takeWhile Char.isDigit
  match l.dropWhile Char.isDigit with
  | [] => if intPart.isEmpty then none else some ((digitsToNat intPart : Int) : Rat)
  | '.' :: frac =>
    if frac.all Char.isDigit && (!intPart.isEmpty || !frac.isEmpty) then
      some (((digitsToNat intPart : Int) : Rat)
            + ((digitsToNat frac : Int) : Rat) / ((10 : Rat) ^ frac.length))
    else none
  | _ => none

/-- Python `float(s)` on a string: optional surrounding whitespace, optional
sign, plain decimal literal.  (Exponent and inf/nan forms, which the catalog
never uses, are not modelled.) -/
def parseFloatChars (l0 : List Char) : Option Rat :=
  match pyStrip l0 with
  | '-' :: r => (parseUnsignedFloat r).map Neg.neg
  | '+' :: r => parseUnsignedFloat r
  | l => parseUnsignedFloat l

/-- Truncation toward zero, the rounding of Python `int(float)`. -/
def ratTrunc (q : Rat) : Int :=
  if q < 0 then -(Rat.floor (-q)) else Rat.floor q

/-- Python `int(value)`; `.error` models the `ValueError`/`TypeError` raised
on unparsable strings and on `None`. -/
def pyInt : PyVal → Except Unit Int
  | .vInt n => .ok n
  | .vFloat q => .ok (ratTrunc q)
  | .vStr s =>
    match parseIntChars s.toList with
    | some n => .ok n
    | none => .error ()
  | .vNone => .error ()

/-- Python `float(value)`; `.error` models the exception raised on unparsable
strings and on `None`. -/
def pyFloat : PyVal → Except Unit Rat
  | .vInt n => .ok ((n : Rat))
  | .vFloat q => .ok q
  | .vStr s =>
    match parseFloatChars s.toList with
    | some q => .ok q
    | none => .error ()
  | .vNone => .error ()

/-- Rendering of a float by Python `str()`.  Modelled only as far as the code
inspects it: the rendering of a float always contains a dot and is therefore
never accepted by the all-digits pid guard in build_index.py:126. -/
def floatRepr (q : Rat) : String :=
  toString q.num ++ "." ++ toString q.den

/-- Python `str(value)`. -/
def pyStr : PyVal → String
  | .vInt n => toString n
  | .vFloat q => floatRepr q
  | .vStr s => s
  | .vNone => "None"

/-- Python `str.isdigit()` (restricted to ASCII content, all the catalog
has): nonempty and all digits. -/
def pyIsdigit (s : String) : Bool :=
  !s.toList.isEmpty && s.toList.all Char.isDigit

/-- Python truthiness of a value, as used by `or` defaults and `if v:`. -/
def pyTruthy : PyVal → Bool
  | .vInt n => n != 0
  | .vFloat q => q != 0
  | .vStr s => s != ""
  | .vNone => false

/-! ## Index store (build_index.py schema, lines 96-104)

`docs` is the FTS5 table (rowid = position + 1), `meta` the metadata table
keyed by pid, `docs_map` the rowid→pid mapping table. -/

/-- One row of the FTS5 `docs` table (build_index.py:97). -/
structure DocRow where
  name : String
  model : String
  mpn : String
  manufacturer : String
  extra : String
deriving DecidableEq

/-- One row of the `meta` table less its pid key (build_index.py:100).
SQLite columns are dynamically typed, so `stock` keeps the stored value. -/
structure MetaRow where
  url : String
  price : Rat
  stock : PyVal
  date_added : String
  discontinue_status : String
deriving DecidableEq

/-- The whole on-disk index: `docs`, `docs_map` (rowid, pid) and `meta`
(pid, row).  The rowid of a doc is its position in `docs` plus one. -/
structure Store where
  docs : List DocRow
  docs_map : List (Nat × Int)
  meta : List (Int × MetaRow)
deriving DecidableEq

/-- The empty, freshly created schema. -/
def emptyStore : Store := ⟨[], [], []⟩

/-- SQLite `INSERT OR REPLACE` keyed on the first component: drops any row
with the same key, then inserts the new row. -/
def upsertMeta (m : List (Int × MetaRow)) (k : Int) (v : MetaRow) :
    List (Int × MetaRow) :=
  m.filter (fun e => e.1 != k) ++ [(k, v)]

/-- SQLite `INSERT OR REPLACE INTO docs_map` keyed on rowid (build_index.py:161). -/
def upsertMap (m : List (Nat × Int)) (k : Nat) (v : Int) : List (Nat × Int) :=
  m.filter (fun e => e.1 != k) ++ [(k, v)]

/-- SQL lookup of the `meta` row joined on pid. -/
def lookupMeta (m : List (Int × MetaRow)) (k : Int) : Option MetaRow :=
  (m.find? (fun e => e.1 == k)).map Prod.snd

/-! ## Builder (build_index.py main loop, lines 121-166) -/

/-- One raw-JSON catalog record: each field either absent or a `PyVal`,
mirroring `r.get(...)` on the parsed JSON dict. -/
structure Record where
  product_id : Option PyVal := none
  product_name : Option PyVal := none
  product_model : Option PyVal := none
  product_mpn : Option PyVal := none
  product_manufacturer : Option PyVal := none
  product_price : Option PyVal := none
  product_stock : Option PyVal := none
  product_url : Option PyVal := none
  date_added : Option PyVal := none
  discontinue_status : Option PyVal := none
  product_master_category : Option PyVal := none
  product_image_alt : Option PyVal := none

/-- build_index.py:124-128: `int(r.get("product_id", 0)) if
str(r.get("product_id", "0")).isdigit() else None`.  Note the two distinct
defaults: the guard sees the string "0" when the field is missing, the
conversion sees the integer 0.  When the guard holds, `int(...)` cannot raise
(proved in `pidOf_parse_ok` below), so the `.getD 0` branch is dead. -/
def pidOf (r : Record) : Option Int :=
  if pyIsdigit (pyStr (r.product_id.getD (.vStr "0"))) then
    some ((pyInt (r.product_id.getD (.vInt 0))).toOption.getD 0)
  else none

/-- The text SQLite ends up holding for a value written into a `docs`
column: `None` becomes NULL, which tokenizes and renders as empty. -/
def storedText (v : PyVal) : String :=
  match v with
  | .vNone => ""
  | v => pyStr v

/-- Python `r.get(k, "")`: the stored text of a field with empty-string default
(used for `name`, build_index.py:129). -/
def fieldStr (o : Option PyVal) : String :=
  storedText (o.getD (.vStr ""))

/-- Python `r.get(k, "") or ""`: falsy values collapse to the empty string (used
for `model`, `mpn`, `manufacturer`, build_index.py:130-132). -/
def fieldStrOr (o : Option PyVal) : String :=
  let x := o.getD (.vStr "")
  if pyTruthy x then storedText x else ""

/-- Python `r.get(k) or ""` on a string-valued metadata field (url, date_added,
discontinue_status; build_index.py:145,154,155). -/
def metaStr (o : Option PyVal) : String :=
  let x := o.getD .vNone
  if pyTruthy x then pyStr x else ""

/-- build_index.py:133-138: the `extra` blob, `str(v)` of each truthy
secondary field joined by single spaces. -/
def extraOf (r : Record) : String :=
  String.intercalate " "
    (([r.product_master_category, r.product_image_alt].filterMap id).filterMap
      (fun v => if pyTruthy v then some (pyStr v) else none))

/-- build_index.py:146-149: `float(r.get("product_price", 0) or 0)` with
parse failure giving 0.0. -/
def priceOf (r : Record) : Rat :=
  let x := r.product_price.getD (.vInt 0)
  let x := if pyTruthy x then x else .vInt 0
  (pyFloat x).toOption.getD 0

/-- build_index.py:150-153: `int(r.get("product_stock", 0) or 0)` with parse
failure giving 0 — the lossy stock coercion of the Builder. -/
def stockOfRec (r : Record) : Int :=
  let x := r.product_stock.getD (.vInt 0)
  let x := if pyTruthy x then x else .vInt 0
  (pyInt x).toOption.getD 0

/-- The searchable projection of a record (build_index.py:129-141). -/
def docOf (r : Record) : DocRow :=
  { name := fieldStr r.product_name
    model := fieldStrOr r.product_model
    mpn := fieldStrOr r.product_mpn
    manufacturer := fieldStrOr r.product_manufacturer
    extra := extraOf r }

/-- The metadata row written for a record with a valid pid
(build_index.py:144-159). -/
def metaRowOf (r : Record) : MetaRow :=
  { url := metaStr r.product_url
    price := priceOf r
    stock := .vInt (stockOfRec r)
    date_added := metaStr r.date_added
    discontinue_status := metaStr r.discontinue_status }

/-- One iteration of the Builder loop (build_index.py:123-165): always insert
the document; when the pid guard passes, also upsert `meta` and `docs_map`
with the fresh rowid (`cur.lastrowid`, the position of the new document + 1). -/
def buildStep (st : Store) (r : Record) : Store :=
  let docs := st.docs ++ [docOf r]
  let rowid := docs.length
  match pidOf r with
  | none => { st with docs := docs }
  | some pid =>
    { docs := docs
      docs_map := upsertMap st.docs_map rowid pid
      meta := upsertMeta st.meta pid (metaRowOf r) }

/-- A full Builder run over the catalog record stream, starting from the
freshly created schema. -/
def build (records : List Record) : Store :=
  records.foldl buildStep emptyStore

/-! ## Query engine (db.py, lines 27-121) -/

/-- db.py:27-34, `_coerce_int`.  The `Except` result type is the effect type
of the Python call (a call may raise); the two nested try/excepts of the body make
every branch return, so every branch here is `.ok`. -/
def _coerce_int (v : PyVal) : Except Unit Int :=
  match pyInt v with
  | .ok n => .ok n
  | .error _ =>
    match pyFloat v with
    | .ok q => .ok (ratTrunc q)
    | .error _ => .ok 0

/-- The dual-typed stock field of a returned `Result`: either the coerced
integer or, from the dead handler branch, the raw stored value. -/
inductive StockVal where
  | num (n : Int)
  | text (v : PyVal)
deriving DecidableEq

/-- db.py:99-104: `try: stock_val = _coerce_int(stock) except Exception:
stock_val = stock`. -/
def stockResult (v : PyVal) : StockVal :=
  match _coerce_int v with
  | .ok n => .num n
  | .error _ => .text v

/-- The `Result` dataclass (db.py:13-24). -/
structure Result where
  pid : Int
  name : String
  price : Rat
  stock : StockVal
  url : String
  date_added : String
  discontinue_status : String
  model : String
  mpn : String
  manufacturer : String
deriving DecidableEq

/-- The two shapes of match expression `search` submits to FTS5: the
space-joined conjunction (db.py:78) and the OR-joined disjunction of
double-quoted tokens (db.py:83). -/
inductive MatchExpr where
  | conj (ts : List (List Char))
  | disj (ts : List (List Char))
deriving DecidableEq

/-- The errors `search` can raise: `FileNotFoundError` (db.py:60),
`RuntimeError` for missing FTS5 (db.py:64), and `sqlite3.OperationalError`
from a rejected MATCH expression (db.py:81). -/
inductive SearchErr where
  | indexNotFound
  | ftsUnavailable
  | querySyntax
deriving DecidableEq

/-- Case folding as applied by the FTS5 tokenizer (ASCII fold). -/
def lowerTok (t : List Char) : List Char :=
  t.map Char.toLower

/-- The case-folded terms FTS5 indexes for a document, over all five
columns (an unqualified query term matches any column). -/
def docTokens (d : DocRow) : List (List Char) :=
  (tokenizeChars d.name.toList ++ tokenizeChars d.model.toList ++
   tokenizeChars d.mpn.toList ++ tokenizeChars d.manufacturer.toList ++
   tokenizeChars d.extra.toList).map lowerTok

/-- Models `docs MATCH expr` for one document: a space-joined expression
requires every term, the OR-joined fallback any term; a double-quoted
alphanumeric token is the same single term as its bareword. -/
def exprMatches (d : DocRow) : MatchExpr → Bool
  | .conj ts => ts.all (fun t => (docTokens d).contains (lowerTok t))
  | .disj ts => ts.any (fun t => (docTokens d).contains (lowerTok t))

/-- The join of db.py:71-77: `docs d JOIN docs_map dm ON dm.rowid = d.rowid
JOIN meta m ON m.pid = dm.pid WHERE docs MATCH ?`, yielding (doc, meta, pid)
rows.  BM25 ordering belongs to the external engine; the model keeps rowid order,
on which no claim depends. -/
def matchingRows (st : Store) (e : MatchExpr) :
    List (DocRow × MetaRow × Int) :=
  st.docs_map.filterMap (fun dm =>
    match st.docs.get? (dm.1 - 1), lookupMeta st.meta dm.2 with
    | some d, some m => if exprMatches d e then some (d, m, dm.2) else none
    | _, _ => none)

/-- Executing one MATCH statement with `LIMIT`: the rejection oracle `rej`
stands for the acceptance of the expression by the external engine
(`sqlite3.OperationalError` when rejected). -/
def runMatch (st : Store) (rej : MatchExpr → Bool) (e : MatchExpr)
    (limit : Nat) : Except SearchErr (List (DocRow × MetaRow × Int)) :=
  if rej e then .error .querySyntax
  else .ok ((matchingRows st e).take limit)

/-- db.py:105-118: materialize one joined row into a `Result`.  `int(pid)` is
the identity on the stored integer; `name or ""` etc. are identities on the
always-string stored fields; `float(price or 0.0)` is the identity on the
stored rational. -/
def rowToResult (row : DocRow × MetaRow × Int) : Result :=
  { pid := row.2.2
    name := row.1.name
    price := row.2.1.price
    stock := stockResult row.2.1.stock
    url := row.2.1.url
    date_added := row.2.1.date_added
    discontinue_status := row.2.1.discontinue_status
    model := row.1.model
    mpn := row.1.mpn
    manufacturer := row.1.manufacturer }

/-- db.py:50-53, `_sanitize_for_fts`. -/
def _sanitize_for_fts (query : List Char) : List (List Char) :=
  tokenizeChars query

/-- db.py:56-121, `search`.  `pathExists` models `db_path.exists()`, `fts5`
models `has_fts5(conn)`, `rej` the engine acceptance of a match
expression; `limit` is the SQL `LIMIT` bound (a count, matching the
positive-integer contract of the spec). -/
def search (pathExists fts5 : Bool) (st : Store) (rej : MatchExpr → Bool)
    (query : String) (limit : Nat) : Except SearchErr (List Result) :=
  if !pathExists then .error .indexNotFound
  else if !fts5 then .error .ftsUnavailable
  else
    let ts := _sanitize_for_fts (pyStrip query.toList)
    if ts.isEmpty then .ok []
    else
      match runMatch st rej (.conj ts) limit with
      | .ok rows => .ok (rows.map rowToResult)
      | .error _ =>
        match runMatch st rej (.disj ts) limit with
        | .ok rows => .ok (rows.map rowToResult)
        | .error e => .error e

/-! ## Tokenizer lemmas -/

/-- Unfolding equation of `tokenizeAux` on empty input. -/
lemma tokenizeAux_nil (acc : List Char) :
    tokenizeAux [] acc = if acc.isEmpty then [] else [acc.reverse] := rfl

/-- Unfolding equation of `tokenizeAux` on a cons. -/
lemma tokenizeAux_cons (c : Char) (cs acc : List Char) :
    tokenizeAux (c :: cs) acc =
      if isAlnumAscii c then tokenizeAux cs (c :: acc)
      else if acc.isEmpty then tokenizeAux cs []
      else acc.reverse :: tokenizeAux cs [] := rfl

/-- Every token the scanner emits from an alphanumeric accumulator is
nonempty and purely alphanumeric. -/
lemma tokenizeAux_wf (l : List Char) :
    ∀ acc, acc.all isAlnumAscii = true →
      ∀ t ∈ tokenizeAux l acc, t ≠ [] ∧ t.all isAlnumAscii = true := by
  induction l with
  | nil =>
    intro acc hacc t ht
    rw [tokenizeAux_nil] at ht
    by_cases h : acc.isEmpty
    · simp [h] at ht
    · simp [h] at ht
      subst ht
      refine ⟨?_, ?_⟩
      · simp [List.isEmpty_iff] at h
        simpa using h
      · simp [List.all_eq_true] at hacc ⊢
        intro c hc
        exact hacc c (by simpa using hc)
  | cons c cs ih =>
    intro acc hacc t ht
    rw [tokenizeAux_cons] at ht
    by_cases hc : isAlnumAscii c
    · rw [if_pos hc] at ht
      exact ih (c :: acc) (by simp [List.all_eq_true] at hacc ⊢; exact ⟨hc, hacc⟩) t ht
    · rw [if_neg hc] at ht
      by_cases he : acc.isEmpty
      · rw [if_pos he] at ht
        exact ih [] (by simp) t ht
      · rw [if_neg he] at ht
        rcases List.mem_cons.mp ht with h | h
        · subst h
          refine ⟨?_, ?_⟩
          · simp [List.isEmpty_iff] at he
            simpa using he
          · simp [List.all_eq_true] at hacc ⊢
            intro x hx
            exact hacc x (by simpa using hx)
        · exact ih [] (by simp) t h

/-- Scanning an alphanumeric run pushes it (reversed) onto the
accumulator. -/
lemma tokenizeAux_run (t : List Char) (ht : t.all isAlnumAscii = true) :
    ∀ l acc, tokenizeAux (t ++ l) acc = tokenizeAux l (t.reverse ++ acc) := by
  induction t with
  | nil => intro l acc; simp
  | cons c t' ih =>
    intro l acc
    simp [List.all_eq_true] at ht
    have hc : isAlnumAscii c = true := ht.1
    show tokenizeAux (c :: (t' ++ l)) acc = _
    rw [tokenizeAux_cons, if_pos hc,
      ih (by simp [List.all_eq_true]; exact ht.2) l (c :: acc)]
    simp

/-- A space flushes a nonempty accumulator as a finished token. -/
lemma tokenizeAux_space (l : List Char) (acc : List Char) (hacc : ¬acc.isEmpty) :
    tokenizeAux (' ' :: l) acc = acc.reverse :: tokenizeAux l [] := by
  rw [tokenizeAux_cons, if_neg (by decide), if_neg hacc]

/-- Tokenizing the space-join of nonempty purely-alphanumeric tokens
recovers exactly those tokens. -/
lemma tokenizeChars_joinSpace (ts : List (List Char))
    (h : ∀ t ∈ ts, t ≠ [] ∧ t.all isAlnumAscii = true) :
    tokenizeChars (joinSpace ts) = ts := by
  induction ts with
  | nil => rfl
  | cons t rest ih =>
    obtain ⟨hne, hal⟩ := h t (List.mem_cons_self t rest)
    have hne' : ¬(t.reverse.isEmpty = true) := by
      simp [List.isEmpty_iff]
      exact hne
    cases rest with
    | nil =>
      show tokenizeChars t = [t]
      unfold tokenizeChars
      have h0 := tokenizeAux_run t hal [] []
      simp at h0
      rw [h0, tokenizeAux_nil, if_neg hne']
      simp
    | cons t2 rest' =>
      show tokenizeChars (t ++ ' ' :: joinSpace (t2 :: rest')) = t :: t2 :: rest'
      unfold tokenizeChars
      rw [tokenizeAux_run t hal (' ' :: joinSpace (t2 :: rest')) []]
      simp only [List.append_nil]
      rw [tokenizeAux_space _ _ hne']
      simp only [List.reverse_reverse]
      have := ih (fun u hu => h u (List.mem_cons_of_mem t hu))
      unfold tokenizeChars at this
      rw [this]

/-- C4 — Tokenization is idempotent on already-tokenized text: for every
string (modelled as its character list), re-tokenizing the space-join of the
token sequence yields the same token sequence, i.e.
`tokenize(" ".join(tokenize(x))) == tokenize(x)` for the tokenizer of
`_sanitize_for_fts` (db.py:50-53). -/
theorem claim_C4_tokenize_idempotent (x : List Char) :
    tokenizeChars (joinSpace (tokenizeChars x)) = tokenizeChars x :=
  tokenizeChars_joinSpace (tokenizeChars x) (tokenizeAux_wf x [] rfl)

/-- A character surviving `dropWhile` was in the original list. -/
lemma mem_of_mem_dropWhile {p : Char → Bool} {l : List Char} {c : Char}
    (h : c ∈ l.dropWhile p) : c ∈ l := by
  induction l with
  | nil => simp at h
  | cons a l ih =>
    by_cases ha : p a
    · rw [List.dropWhile_cons_of_pos ha] at h
      exact List.mem_cons_of_mem a (ih h)
    · rw [List.dropWhile_cons_of_neg ha] at h
      exact h

/-- A character surviving `pyStrip` was in the original list. -/
lemma mem_of_mem_pyStrip {l : List Char} {c : Char} (h : c ∈ pyStrip l) :
    c ∈ l := by
  unfold pyStrip at h
  rw [List.mem_reverse] at h
  have h2 := mem_of_mem_dropWhile h
  rw [List.mem_reverse] at h2
  exact mem_of_mem_dropWhile h2

/-- Text with no alphanumeric character tokenizes to no tokens. -/
lemma tokenizeChars_eq_nil {l : List Char}
    (h : ∀ c ∈ l, isAlnumAscii c = false) : tokenizeChars l = [] := by
  unfold tokenizeChars
  induction l with
  | nil => rfl
  | cons c cs ih =>
    rw [tokenizeAux_cons, if_neg (by simp [h c (List.mem_cons_self c cs)]),
      if_pos (by decide)]
    exact ih (fun x hx => h x (List.mem_cons_of_mem c hx))

/-- C2 — For every query composed solely of punctuation and/or whitespace
(no ASCII-alphanumeric character, so tokenization yields zero tokens),
`search` on a present, FTS-capable store returns `.ok []`: the empty
sequence, not an error, for every store, engine oracle and limit. -/
theorem claim_C2_punctuation_empty (st : Store) (rej : MatchExpr → Bool)
    (q : String) (limit : Nat)
    (h : ∀ c ∈ q.toList, isAlnumAscii c = false) :
    search true true st rej q limit = .ok [] := by
  have hts : _sanitize_for_fts (pyStrip q.toList) = [] :=
    tokenizeChars_eq_nil (fun c hc => h c (mem_of_mem_pyStrip hc))
  unfold search
  rw [hts]
  rfl

/-- Witness for C2: the concrete query `" ?!,. "` on the empty store. -/
theorem claim_C2_witness :
    (∀ c ∈ (" ?!,. " : String).toList, isAlnumAscii c = false) ∧
      search true true emptyStore (fun _ => false) " ?!,. " 20 = .ok [] :=
  ⟨by decide, claim_C2_punctuation_empty emptyStore (fun _ => false) " ?!,. " 20
    (by decide)⟩

/-- C5 — The result count never exceeds the requested limit: whenever
`search` returns a sequence at all (any store, any engine oracle, any flags,
any query), its length is at most `limit`, the SQL `LIMIT` bound
(db.py:76). -/
theorem claim_C5_limit_respected (pe f : Bool) (st : Store)
    (rej : MatchExpr → Bool) (q : String) (limit : Nat) (rs : List Result)
    (h : search pe f st rej q limit = .ok rs) : rs.length ≤ limit := by
  unfold search at h
  cases pe with
  | false => simp at h
  | true =>
    cases f with
    | false => simp at h
    | true =>
      simp only [Bool.not_true, Bool.false_eq_true, if_false] at h
      by_cases hts : (_sanitize_for_fts (pyStrip q.toList)).isEmpty
      · rw [if_pos hts] at h
        simp at h
        subst h
        simp
      · rw [if_neg hts] at h
        unfold runMatch at h
        by_cases h1 : rej (.conj (_sanitize_for_fts (pyStrip q.toList)))
        · rw [if_pos h1] at h
          by_cases h2 : rej (.disj (_sanitize_for_fts (pyStrip q.toList)))
          · rw [if_pos h2] at h
            simp at h
          · rw [if_neg h2] at h
            simp at h
            rw [← h]
            simp [List.length_take]
        · rw [if_neg h1] at h
          simp at h
          rw [← h]
          simp [List.length_take]

/-- Witness for C5: a concrete successful search on the empty store with
limit 5 returns at most 5 results. -/
theorem claim_C5_witness :
    search true true emptyStore (fun _ => false) "feather" 5 = .ok [] ∧
      ([] : List Result).length ≤ 5 :=
  ⟨by decide, claim_C5_limit_respected true true emptyStore (fun _ => false)
    "feather" 5 [] (by decide)⟩

/-- C8 — `search` fails with the index-not-found error exactly when the
backing store path does not exist; the existence check precedes everything
else (the equivalence holds for every FTS-capability flag, store content,
oracle, query and limit, so no later step can produce or suppress it), and
when the path exists no index-not-found error is ever returned
(db.py:59-60). -/
theorem claim_C8_index_not_found (pe f : Bool) (st : Store)
    (rej : MatchExpr → Bool) (q : String) (limit : Nat) :
    search pe f st rej q limit = .error .indexNotFound ↔ pe = false := by
  cases pe with
  | false => simp [search]
  | true =>
    constructor
    · intro h
      exfalso
      unfold search at h
      simp only [Bool.not_true, Bool.false_eq_true, if_false] at h
      cases f with
      | false => simp at h
      | true =>
        by_cases hts : (_sanitize_for_fts (pyStrip q.toList)).isEmpty
        · rw [if_pos hts] at h
          simp at h
        · rw [if_neg hts] at h
          unfold runMatch at h
          by_cases h1 : rej (.conj (_sanitize_for_fts (pyStrip q.toList)))
          · rw [if_pos h1] at h
            by_cases h2 : rej (.disj (_sanitize_for_fts (pyStrip q.toList)))
            · rw [if_pos h2] at h
              simp at h
            · rw [if_neg h2] at h
              simp at h
          · rw [if_neg h1] at h
            simp at h
    · intro h
      simp at h

/-- C3 — Fallback behavior of `search` (db.py:78-84), with the engine
acceptance of match expressions abstracted as the oracle `rej`: when the
conjunctive space-joined expression is accepted, its results are returned;
when it is rejected, the OR-joined disjunction of quoted tokens is tried
exactly once and, if accepted, its results are returned normally; when the
retry is also rejected, the error propagates to the caller. -/
theorem claim_C3_fallback_retry (st : Store) (rej : MatchExpr → Bool)
    (q : String) (limit : Nat) (ts : List (List Char))
    (hts : ts = _sanitize_for_fts (pyStrip q.toList)) (hne : ts ≠ []) :
    (rej (.conj ts) = false →
        search true true st rej q limit =
          .ok (((matchingRows st (.conj ts)).take limit).map rowToResult)) ∧
    (rej (.conj ts) = true → rej (.disj ts) = false →
        search true true st rej q limit =
          .ok (((matchingRows st (.disj ts)).take limit).map rowToResult)) ∧
    (rej (.conj ts) = true → rej (.disj ts) = true →
        search true true st rej q limit = .error .querySyntax) := by
  subst hts
  have hE : (_sanitize_for_fts (pyStrip q.toList)).isEmpty = false := by
    cases hEE : (_sanitize_for_fts (pyStrip q.toList)).isEmpty with
    | false => rfl
    | true => exact absurd (List.isEmpty_iff.mp hEE) hne
  refine ⟨?_, ?_, ?_⟩
  · intro h1
    unfold search
    simp only [Bool.not_true, Bool.false_eq_true, if_false, hE]
    unfold runMatch
    rw [if_neg (by simp only [Bool.not_eq_true]; exact h1)]
  · intro h1 h2
    unfold search
    simp only [Bool.not_true, Bool.false_eq_true, if_false, hE]
    unfold runMatch
    rw [if_pos h1, if_neg (by simp only [Bool.not_eq_true]; exact h2)]
  · intro h1 h2
    unfold search
    simp only [Bool.not_true, Bool.false_eq_true, if_false, hE]
    unfold runMatch
    rw [if_pos h1, if_pos h2]

/-- Witness for C3: on the empty store with an oracle that rejects the
conjunctive form of the query "hello" and accepts the disjunctive form, the
instantiated conjunction holds; in particular the fallback path returns
`.ok []`. -/
theorem claim_C3_witness :
    _sanitize_for_fts (pyStrip ("hello" : String).toList) ≠ [] ∧
      (((fun e => match e with | .conj _ => true | .disj _ => false) :
          MatchExpr → Bool) (.conj (_sanitize_for_fts (pyStrip ("hello" : String).toList))) = true →
        ((fun e => match e with | .conj _ => true | .disj _ => false) :
          MatchExpr → Bool) (.disj (_sanitize_for_fts (pyStrip ("hello" : String).toList))) = false →
        search true true emptyStore
            (fun e => match e with | .conj _ => true | .disj _ => false)
            "hello" 3 =
          .ok (((matchingRows emptyStore
              (.disj (_sanitize_for_fts (pyStrip ("hello" : String).toList)))).take 3).map
            rowToResult)) :=
  ⟨by decide,
    (claim_C3_fallback_retry emptyStore
      (fun e => match e with | .conj _ => true | .disj _ => false)
      "hello" 3 _ rfl (by decide)).2.1⟩

/-- The value claim C10 describes for the stock coercion: the integer parse
of the value when that succeeds, else the truncated float parse when that
succeeds, else 0. -/
def coerceIntDescribed (v : PyVal) : Int :=
  match pyInt v with
  | .ok n => n
  | .error _ =>
    match pyFloat v with
    | .ok q => ratTrunc q
    | .error _ => 0

/-- C10 — `_coerce_int` is total: for every input it returns (`.ok`) an
integer and never raises — the integer parse when that succeeds, else the
truncated float parse when that succeeds, else 0 — and therefore the
`except` handler around the stock coercion in `search` (db.py:101-104) is
unreachable: `stockResult` always takes the numeric branch. -/
theorem claim_C10_coerce_total (v : PyVal) :
    _coerce_int v = .ok (coerceIntDescribed v) ∧
      stockResult v = .num (coerceIntDescribed v) := by
  have h : _coerce_int v = .ok (coerceIntDescribed v) := by
    unfold _coerce_int coerceIntDescribed
    cases hp : pyInt v with
    | ok n => simp
    | error e =>
      cases hf : pyFloat v with
      | ok q => simp
      | error e2 => simp
  refine ⟨h, ?_⟩
  unfold stockResult
  rw [h]

/-- The C1 test record: stock reported as the qualitative string
`"in stock"`. -/
def recInStock : Record :=
  { product_id := some (.vInt 7)
    product_name := some (.vStr "Widget")
    product_stock := some (.vStr "in stock") }

/-- A store state in which the stored stock value is the raw string
`"in stock"` (SQLite columns are dynamically typed, so such a row is
representable), exercising the query-time branch of the dual-type reading
directly. -/
def stInStock : Store :=
  ⟨[⟨"Widget", "", "", "", ""⟩], [(1, 7)],
   [(7, ⟨"", 0, .vStr "in stock", "", ""⟩)]⟩

/-- C1 — refuted on the code (code bug): a record whose stock field is the
non-numeric string "in stock" does NOT round-trip: the Builder stores the
integer 0 for it, and even when the stored value IS the raw string, the
query path returns stock 0, never the original string — `_coerce_int`
swallows its own failures and returns 0, so the string-preserving handler
that the comment at db.py:99 and the `int | str` annotation promise is dead
code. -/
theorem claim_C1_stock_zeroed :
    stockResult (.vStr "in stock") = .num 0 ∧
      (build [recInStock]).meta =
        [(7, { url := "", price := 0, stock := .vInt 0, date_added := "",
               discontinue_status := "" })] ∧
      search true true (build [recInStock]) (fun _ => false) "widget" 20 =
        .ok [{ pid := 7, name := "Widget", price := 0, stock := .num 0,
               url := "", date_added := "", discontinue_status := "",
               model := "", mpn := "", manufacturer := "" }] ∧
      search true true stInStock (fun _ => false) "widget" 20 =
        .ok [{ pid := 7, name := "Widget", price := 0, stock := .num 0,
               url := "", date_added := "", discontinue_status := "",
               model := "", mpn := "", manufacturer := "" }] :=
  ⟨by decide, by decide, by decide, by decide⟩

/-! ## pid guard lemmas (build_index.py:124-128) -/

/-- A digit is not whitespace. -/
lemma isDigit_not_isWhitespace {c : Char} (h : c.isDigit = true) :
    c.isWhitespace = false := by
  cases hw : c.isWhitespace with
  | false => rfl
  | true =>
    exfalso
    simp [Char.isWhitespace] at hw
    rcases hw with ((h1 | h1) | h1) | h1 <;> subst h1 <;>
      exact absurd h (by decide)

/-- List `dropWhile` is the identity when no element satisfies the predicate. -/
lemma dropWhile_of_forall_false {p : Char → Bool} {l : List Char}
    (h : ∀ c ∈ l, p c = false) : l.dropWhile p = l := by
  cases l with
  | nil => rfl
  | cons a l =>
    rw [List.dropWhile_cons_of_neg]
    simp [h a (List.mem_cons_self a l)]

/-- Stripping is the identity on whitespace-free text. -/
lemma pyStrip_of_no_ws {l : List Char}
    (h : ∀ c ∈ l, c.isWhitespace = false) : pyStrip l = l := by
  unfold pyStrip
  rw [dropWhile_of_forall_false h,
    dropWhile_of_forall_false (fun c hc => h c (List.mem_reverse.mp hc)),
    List.reverse_reverse]

/-- Python `int()` succeeds on a nonempty all-digits character list and
returns its (non-negative) numeric value. -/
lemma parseIntChars_digits {l : List Char} (hne : l ≠ [])
    (hd : l.all Char.isDigit = true) :
    parseIntChars l = some ((digitsToNat l : Nat) : Int) := by
  rw [List.all_eq_true] at hd
  have hstrip : pyStrip l = l :=
    pyStrip_of_no_ws (fun c hc => isDigit_not_isWhitespace (hd c hc))
  obtain ⟨c, cs, rfl⟩ := List.exists_cons_of_ne_nil hne
  have hc : c.isDigit = true := hd c (List.mem_cons_self c cs)
  have hcm : c ≠ '-' := by
    intro h
    subst h
    exact absurd hc (by decide)
  have hcp : c ≠ '+' := by
    intro h
    subst h
    exact absurd hc (by decide)
  unfold parseIntChars
  rw [hstrip]
  split
  · rename_i r heq
    exact absurd (List.cons.injEq .. ▸ heq).1 hcm
  · rename_i r heq
    exact absurd (List.cons.injEq .. ▸ heq).1 hcp
  · unfold parseNatDigits
    rw [if_pos]
    · rfl
    · simp [List.all_eq_true]
      exact ⟨hc, fun x hx => hd x (List.mem_cons_of_mem c hx)⟩

/-- The pid guard characterization: `pidOf` yields no pid exactly when the
string form of the id field (defaulting to "0" when absent) is not a
nonempty digit string. -/
lemma pidOf_none_iff (r : Record) :
    pidOf r = none ↔
      pyIsdigit (pyStr (r.product_id.getD (.vStr "0"))) = false := by
  cases hg : pyIsdigit (pyStr (r.product_id.getD (.vStr "0"))) with
  | true => simp [pidOf, hg]
  | false => simp [pidOf, hg]

/-- Any pid the guard admits is non-negative. -/
lemma pidOf_nonneg (r : Record) (p : Int) (hp : pidOf r = some p) : 0 ≤ p := by
  unfold pidOf at hp
  by_cases hg : pyIsdigit (pyStr (r.product_id.getD (.vStr "0"))) = true
  · rw [if_pos hg] at hp
    cases ho : r.product_id with
    | none =>
      rw [ho] at hp
      simp [pyInt, Except.toOption] at hp
      omega
    | some v =>
      rw [ho] at hp hg
      cases v with
      | vInt n =>
        cases n with
        | ofNat k =>
          simp [pyInt, Except.toOption] at hp
          omega
        | negSucc m =>
          exfalso
          have hrepr : pyStr (.vInt (Int.negSucc m)) = "-" ++ toString (m + 1) := rfl
          rw [Option.getD_some, hrepr] at hg
          unfold pyIsdigit at hg
          rw [Bool.and_eq_true] at hg
          have hall := hg.2
          have : (("-" ++ toString (m + 1)).toList).all Char.isDigit = false := by
            show (("-" ++ toString (m + 1)).data).all Char.isDigit = false
            rw [String.data_append]
            simp [List.all_append]
          rw [this] at hall
          exact Bool.false_ne_true hall
      | vFloat q0 =>
        exfalso
        have hrepr : pyStr (.vFloat q0) =
            toString q0.num ++ "." ++ toString q0.den := rfl
        rw [Option.getD_some, hrepr] at hg
        unfold pyIsdigit at hg
        rw [Bool.and_eq_true] at hg
        have hall := hg.2
        have : ((toString q0.num ++ "." ++ toString q0.den).toList).all
            Char.isDigit = false := by
          show ((toString q0.num ++ "." ++ toString q0.den).data).all
            Char.isDigit = false
          rw [String.data_append, String.data_append]
          simp [List.all_append]
        rw [this] at hall
        exact Bool.false_ne_true hall
      | vStr s =>
        simp only [Option.getD_some, pyStr] at hg
        unfold pyIsdigit at hg
        rw [Bool.and_eq_true] at hg
        have hne : s.toList ≠ [] := by
          have := hg.1
          simp [List.isEmpty_iff] at this
          exact this
        have hdig := parseIntChars_digits hne hg.2
        simp only [Option.getD_some, pyInt, hdig, Except.toOption] at hp
        simp at hp
        omega
      | vNone => exact absurd hg (by decide)
  · rw [if_neg hg] at hp
    simp at hp

/-- The record of the C6 counterexample: its product id field is missing
entirely. -/
def recNoId : Record := { product_name := some (.vStr "NoId") }

/-- C6 counterexample — the claim is false for a record whose product id
field is MISSING: the default string "0" seen by the guard passes `isdigit`, so the
Builder assigns pid 0 and DOES create a Metadata row and a Mapping entry for
the record, contradicting "creates no Metadata row and no Mapping entry for
it". -/
theorem claim_C6_counterexample :
    recNoId.product_id = none ∧
      pidOf recNoId = some 0 ∧
      (buildStep emptyStore recNoId).meta = [(0, metaRowOf recNoId)] ∧
      (buildStep emptyStore recNoId).docs_map = [(1, 0)] :=
  ⟨rfl, by decide, by decide, by decide⟩

/-- C6 amended — every record gets a full-text document; a record receives
a Metadata row and a Mapping entry iff the string form of its id field
(with the missing field defaulting to "0", hence to pid 0) is a nonempty
digit string, in which case the parsed pid is non-negative; records whose
present id field is non-numeric get neither. -/
theorem claim_C6_amended_pid_gate (st : Store) (r : Record) :
    (buildStep st r).docs = st.docs ++ [docOf r] ∧
      (pidOf r = none ↔
        pyIsdigit (pyStr (r.product_id.getD (.vStr "0"))) = false) ∧
      (pidOf r = none →
        (buildStep st r).meta = st.meta ∧
          (buildStep st r).docs_map = st.docs_map) ∧
      (∀ p, pidOf r = some p →
        0 ≤ p ∧
          (buildStep st r).meta = upsertMeta st.meta p (metaRowOf r) ∧
          (buildStep st r).docs_map =
            upsertMap st.docs_map (st.docs.length + 1) p) := by
  refine ⟨?_, pidOf_none_iff r, ?_, ?_⟩
  · unfold buildStep
    cases hp : pidOf r <;> simp
  · intro hp
    unfold buildStep
    rw [hp]
    exact ⟨rfl, rfl⟩
  · intro p hp
    refine ⟨pidOf_nonneg r p hp, ?_, ?_⟩
    · unfold buildStep
      rw [hp]
    · unfold buildStep
      rw [hp]
      simp [List.length_append, upsertMap]

/-- Witness for C6 (amended): a record with the non-numeric id "abc" gets a
document but no Metadata/Mapping change, applied to the empty store. -/
theorem claim_C6_witness :
    pidOf { product_id := some (.vStr "abc") : Record } = none ∧
      (buildStep emptyStore { product_id := some (.vStr "abc") : Record }).meta =
          emptyStore.meta ∧
        (buildStep emptyStore
          { product_id := some (.vStr "abc") : Record }).docs_map =
          emptyStore.docs_map :=
  ⟨by decide,
    (claim_C6_amended_pid_gate emptyStore
      { product_id := some (.vStr "abc") }).2.2.1 (by decide)⟩

/-! ## C7 — Builder/Query round-trip -/

/-- An engine oracle that accepts every match expression. -/
def noReject : MatchExpr → Bool := fun _ => false

/-- The float 12.34, exactly (in lowest terms 617/50; the double for
"12.34" round-trips unchanged through storage, and no arithmetic is
performed on it). -/
def p7 : Rat := ⟨617, 50, by decide, by simp [Nat.Coprime]⟩

/-- The C7 round-trip record: pid 1234, name "Feather Test Board",
price 12.34, stock 42. -/
def rec7 : Record :=
  { product_id := some (.vInt 1234)
    product_name := some (.vStr "Feather Test Board")
    product_price := some (.vFloat p7)
    product_stock := some (.vInt 42) }

/-- The index built from the catalog holding exactly the C7 record. -/
def db7 : Store := build [rec7]

/-- The search result the C7 record materializes to. -/
def res7 : Result :=
  { pid := 1234, name := "Feather Test Board", price := p7,
    stock := .num 42, url := "", date_added := "", discontinue_status := "",
    model := "", mpn := "", manufacturer := "" }

/-- C7 counterexample — the claim quantifies over ANY query containing the
tokens "feather" and "test", but the conjunctive match requires every
token: the query "feather test widget" contains both tokens yet returns no
result at all for the built record (so in particular none with pid 1234),
because "widget" does not occur in the record. -/
theorem claim_C7_counterexample :
    tokenizeChars (pyStrip ("feather test widget" : String).toList) =
        [['f', 'e', 'a', 't', 'h', 'e', 'r'], ['t', 'e', 's', 't'],
         ['w', 'i', 'd', 'g', 'e', 't']] ∧
      search true true db7 noReject "feather test widget" 20 = .ok [] :=
  ⟨by decide, by decide⟩

/-- C7 amended — for the catalog holding exactly the record (pid 1234, name
"Feather Test Board", price 12.34, stock 42), any query with at least one
token all of whose tokens occur (case-folded) in the document of the record —
for instance "feather test" — returns exactly the SearchResult with
pid 1234 and price 12.34. -/
theorem claim_C7_amended_roundtrip (q : String)
    (h1 : _sanitize_for_fts (pyStrip q.toList) ≠ [])
    (h2 : ∀ t ∈ _sanitize_for_fts (pyStrip q.toList),
        (docTokens (docOf rec7)).contains (lowerTok t) = true) :
    search true true db7 noReject q 20 = .ok [res7] := by
  have hE : (_sanitize_for_fts (pyStrip q.toList)).isEmpty = false := by
    cases hEE : (_sanitize_for_fts (pyStrip q.toList)).isEmpty with
    | false => rfl
    | true => exact absurd (List.isEmpty_iff.mp hEE) h1
  have hmatch : exprMatches (docOf rec7)
      (.conj (_sanitize_for_fts (pyStrip q.toList))) = true := by
    unfold exprMatches
    rw [List.all_eq_true]
    intro t ht
    exact h2 t ht
  have hdb : db7 = ⟨[docOf rec7], [(1, 1234)], [(1234, metaRowOf rec7)]⟩ := by
    decide
  unfold search
  simp only [Bool.not_true, Bool.false_eq_true, if_false, hE]
  unfold runMatch
  rw [if_neg (by simp [noReject])]
  rw [hdb]
  unfold matchingRows
  simp only [List.filterMap_cons, List.filterMap_nil]
  simp only [lookupMeta, List.find?, List.get?]
  simp only [show ((1234 : Int) == 1234) = true from rfl, Option.map, hmatch,
    if_true]
  decide

/-- Witness for C7 (amended): the concrete query "feather test". -/
theorem claim_C7_witness :
    (_sanitize_for_fts (pyStrip ("feather test" : String).toList) ≠ [] ∧
        ∀ t ∈ _sanitize_for_fts (pyStrip ("feather test" : String).toList),
          (docTokens (docOf rec7)).contains (lowerTok t) = true) ∧
      search true true db7 noReject "feather test" 20 = .ok [res7] :=
  ⟨⟨by decide, by decide⟩,
    claim_C7_amended_roundtrip "feather test" (by decide) (by decide)⟩

/-! ## C9 — Builder store invariants -/

/-- Keys stay pairwise distinct under replace-or-insert. -/
lemma upsert_keys_nodup {κ α : Type} [DecidableEq κ] (m : List (κ × α))
    (k : κ) (v : α) (h : (m.map Prod.fst).Nodup) :
    (((m.filter (fun e => e.1 != k)) ++ [(k, v)]).map Prod.fst).Nodup := by
  rw [List.map_append]
  refine List.Nodup.append ?_ (by simp) ?_
  · exact h.sublist ((List.filter_sublist m).map Prod.fst)
  · intro x hx
    simp only [List.mem_map] at hx
    obtain ⟨e, he, rfl⟩ := hx
    have := (List.mem_filter.mp he).2
    simp only [bne_iff_ne, ne_eq] at this
    simp [this]

/-- Keys present before an upsert, and the upserted key, are present after
it. -/
lemma upsert_keys_mem {κ α : Type} [DecidableEq κ] (m : List (κ × α))
    (k : κ) (v : α) (p : κ) (h : p ∈ m.map Prod.fst ∨ p = k) :
    p ∈ ((m.filter (fun e => e.1 != k)) ++ [(k, v)]).map Prod.fst := by
  rw [List.map_append, List.mem_append]
  by_cases hk : p = k
  · right
    simp [hk]
  · left
    rcases h with h | h
    · simp only [List.mem_map] at h ⊢
      obtain ⟨e, he, rfl⟩ := h
      exact ⟨e, List.mem_filter.mpr ⟨he, by simp [bne_iff_ne]; exact hk⟩, rfl⟩
    · exact absurd h hk

/-- The Builder invariant: metadata keys are pairwise distinct, mapping
rowids are pairwise distinct and point into `docs`, and every mapped pid has
a metadata row. -/
def StoreInv (st : Store) : Prop :=
  (st.meta.map Prod.fst).Nodup ∧
    (st.docs_map.map Prod.fst).Nodup ∧
    (∀ e ∈ st.docs_map, e.1 ≤ st.docs.length) ∧
    (∀ e ∈ st.docs_map, e.2 ∈ st.meta.map Prod.fst)

/-- One Builder iteration preserves the store invariant. -/
lemma buildStep_inv (st : Store) (r : Record) (h : StoreInv st) :
    StoreInv (buildStep st r) := by
  obtain ⟨h1, h2, h3, h4⟩ := h
  unfold buildStep
  cases hp : pidOf r with
  | none =>
    refine ⟨h1, h2, ?_, h4⟩
    intro e he
    exact le_trans (h3 e he) (by simp)
  | some p =>
    refine ⟨upsert_keys_nodup st.meta p (metaRowOf r) h1,
      upsert_keys_nodup st.docs_map (st.docs ++ [docOf r]).length p h2, ?_, ?_⟩
    · intro e he
      simp only [upsertMap, List.mem_append] at he
      rcases he with he | he
      · exact le_trans (h3 e (List.mem_filter.mp he).1) (by simp)
      · simp at he
        simp [he]
    · intro e he
      simp only [upsertMap, List.mem_append] at he
      rcases he with he | he
      · exact upsert_keys_mem st.meta p (metaRowOf r) e.2
          (Or.inl (h4 e (List.mem_filter.mp he).1))
      · refine upsert_keys_mem st.meta p (metaRowOf r) e.2 (Or.inr ?_)
        simp at he
        simp [he]

/-- The invariant holds after any full Builder run. -/
lemma build_inv (rs : List Record) : StoreInv (build rs) := by
  have main : ∀ (l : List Record) (st : Store), StoreInv st →
      StoreInv (l.foldl buildStep st) := by
    intro l
    induction l with
    | nil => intro st h; exact h
    | cons r l ih => intro st h; exact ih (buildStep st r) (buildStep_inv st r h)
  exact main rs emptyStore
    ⟨by simp [emptyStore], by simp [emptyStore], by simp [emptyStore],
      by simp [emptyStore]⟩

/-- With pairwise-distinct keys, a present key owns exactly one row. -/
lemma filter_key_length_one {m : List (Int × MetaRow)} {p : Int}
    (hn : (m.map Prod.fst).Nodup) (hm : p ∈ m.map Prod.fst) :
    (m.filter (fun me => me.1 == p)).length = 1 := by
  induction m with
  | nil => simp at hm
  | cons e m' ih =>
    simp only [List.map_cons, List.nodup_cons] at hn
    rcases List.mem_cons.mp hm with h | h
    · rw [List.filter_cons, if_pos (by simp [h.symm])]
      have hnone : m'.filter (fun me => me.1 == p) = [] := by
        rw [List.filter_eq_nil_iff]
        intro a ha
        simp only [beq_iff_eq]
        intro hc
        exact hn.1 (h ▸ hc ▸ List.mem_map_of_mem Prod.fst ha)
      simp [hnone]
    · have hne : ¬(e.1 == p) = true := by
        simp only [beq_iff_eq]
        intro hc
        exact hn.1 (hc ▸ h)
      rw [List.filter_cons, if_neg hne]
      exact ih hn.2 h

/-- Searching over a list whose elements all fail the predicate, followed by a
matching element, returns that element. -/
lemma find?_append_singleton {α : Type} (l : List α) (x : α) (p : α → Bool)
    (h : ∀ e ∈ l, p e = false) (hx : p x = true) :
    (l ++ [x]).find? p = some x := by
  induction l with
  | nil => simp [List.find?, hx]
  | cons a l ih =>
    rw [List.cons_append,
      List.find?_cons_of_neg _ (by simp [h a (List.mem_cons_self a l)]),
      ih (fun e he => h e (List.mem_cons_of_mem a he))]

/-- Replace-or-insert is last-write-wins: looking up the upserted pid yields
the newly written row. -/
lemma lookupMeta_upsert (m : List (Int × MetaRow)) (k : Int) (v : MetaRow) :
    lookupMeta (upsertMeta m k v) k = some v := by
  unfold lookupMeta upsertMeta
  rw [find?_append_singleton]
  · rfl
  · intro e he
    have := (List.mem_filter.mp he).2
    simp only [bne_iff_ne, ne_eq] at this
    simp [this]
  · simp

/-- The record of the C9 counterexample: a present but non-numeric product
id. -/
def recBadId : Record :=
  { product_id := some (.vStr "x"), product_name := some (.vStr "Odd") }

/-- C9 counterexample — "every document inserted into the full-text table
has exactly one Mapping entry" is false: a record with the non-numeric id
"x" is inserted as a document (docs has one row) but receives no Mapping
entry at all (docs_map is empty). -/
theorem claim_C9_counterexample :
    (build [recBadId]).docs.length = 1 ∧ (build [recBadId]).docs_map = [] :=
  ⟨by decide, by decide⟩

/-- C9 amended — after any Builder run: every document has AT MOST one
Mapping entry (mapping rowids are pairwise distinct and point into the
document table; documents from invalid-pid records have none); every pid
appearing in a Mapping entry has exactly one Metadata row; and re-inserting
a record with an already-present pid replaces the Metadata row of that pid
(last-write-wins), so duplicate pids never produce duplicate Metadata rows
or an error. -/
theorem claim_C9_amended_invariants (rs : List Record) :
    ((build rs).meta.map Prod.fst).Nodup ∧
      ((build rs).docs_map.map Prod.fst).Nodup ∧
      (∀ e ∈ (build rs).docs_map, e.1 ≤ (build rs).docs.length) ∧
      (∀ e ∈ (build rs).docs_map,
        ((build rs).meta.filter (fun me => me.1 == e.2)).length = 1) ∧
      (∀ (st : Store) (r : Record) (p : Int), pidOf r = some p →
        lookupMeta (buildStep st r).meta p = some (metaRowOf r)) := by
  obtain ⟨h1, h2, h3, h4⟩ := build_inv rs
  refine ⟨h1, h2, h3, ?_, ?_⟩
  · intro e he
    exact filter_key_length_one h1 (h4 e he)
  · intro st r p hp
    show lookupMeta
      (match pidOf r with
        | none => { st with docs := st.docs ++ [docOf r] }
        | some pid =>
          { docs := st.docs ++ [docOf r]
            docs_map := upsertMap st.docs_map (st.docs ++ [docOf r]).length pid
            meta := upsertMeta st.meta pid (metaRowOf r) } : Store).meta p =
      some (metaRowOf r)
    rw [hp]
    exact lookupMeta_upsert st.meta p (metaRowOf r)

/-- Witness for C9 (amended): duplicate pid 7 across the catalog — the
second metadata row wins and the pid still has exactly one row. -/
theorem claim_C9_witness :
    pidOf recInStock = some 7 ∧
      lookupMeta (buildStep (build [recInStock]) recInStock).meta 7 =
        some (metaRowOf recInStock) :=
  ⟨by decide,
    (claim_C9_amended_invariants []).2.2.2.2 (build [recInStock]) recInStock 7
      (by decide)⟩

end FruitfulSearch
